import Mathlib

/-!
Shallow embedding of the task-manager service (src/model.py, src/main.py).

Modelling conventions:
* `UUID` is `Nat`; the store carries a counter `nextId` and every call of
  Python's `uuid4()` consumes one counter value, so generated identifiers are
  fresh (distinct from all earlier ones), mirroring uuid4 freshness.
* `DateTime` is `Nat`: minutes since the epoch of a timezone-aware UTC
  timestamp.  Python's `datetime` comparison becomes `Nat` comparison.
  `datetime.max` becomes the constant `datetimeMax`.
* Asia/Colombo is UTC+05:30 with no daylight saving, so
  `dt.astimezone(ZoneInfo("Asia/Colombo")).date()` becomes
  `(dt + 330) / 1440` (`colomboDate`).  `datetime.now(...)` is modelled by
  passing the current instant `now : DateTime` into each operation that
  reads the clock.
* A pydantic patch model distinguishes "field omitted" from "field set to
  null" through `model_fields_set`; a patch field of Python type
  `Optional[X]` is therefore embedded as `Option (Option X)`:
  `none` = omitted, `some none` = explicit null, `some (some v)` = value.
  `presentValue` returns the attribute value the Python code reads
  (`None` both for omitted and for explicit null).
* The global dict `TASKS : Dict[UUID, Task]` is an insertion-ordered list of
  tasks (dict order); lookup finds the entry with the given id, in-place
  mutation of a looked-up task replaces that entry, `del` removes it.
* Python's stable `list.sort(key=...)` is embedded as
  `List.insertionSort` with the non-strict key order, which is the stable
  ascending sort.
-/

namespace TodoApp

abbrev UUID := Nat

abbrev DateTime := Nat

/-- Stand-in for Python's `datetime.max` used in the sort keys. -/
def datetimeMax : DateTime := 5258964959

/-- Minutes offset of Asia/Colombo from UTC (+05:30, no DST). -/
def colomboOffset : Nat := 330

/-- Calendar day (as a day number) of a UTC instant viewed in Asia/Colombo. -/
def colomboDate (ts : DateTime) : Nat := (ts + colomboOffset) / 1440

/-- `_colombo_today`: the current date in Asia/Colombo, given the instant. -/
def colomboToday (now : DateTime) : Nat := colomboDate now

/-- `_fake_provider_event_id`: `f"evt_{uuid4()}"`, with the uuid drawn from
the freshness counter. -/
def fakeProviderEventId (n : Nat) : String := "evt_" ++ toString n

/-- Python truthiness of an `Optional[str]`: not `None` and not empty. -/
def strTruthy : Option String → Bool
  | none => false
  | some s => s ≠ ""

/-- The attribute value pydantic exposes for a tri-state patch field:
omitted and explicit null both read back as `None`. -/
def presentValue (x : Option (Option α)) : Option α := x.getD none

/-- Character-list version of Python's `startswith`. -/
def seqStartsWith : List Char → List Char → Bool
  | [], _ => true
  | _ :: _, [] => false
  | a :: as, b :: bs => a == b && seqStartsWith as bs

/-- Character-list version of Python's substring test `needle in hay`. -/
def seqHasSub (needle : List Char) : List Char → Bool
  | [] => needle.isEmpty
  | b :: bs => seqStartsWith needle (b :: bs) || seqHasSub needle bs

/-- Python's `hay.__contains__(needle)` on strings. -/
def strHasSub (hay needle : String) : Bool := seqHasSub needle.toList hay.toList

/-- Python's `str.lower()`. -/
def strLower (s : String) : String := String.mk (s.toList.map Char.toLower)

inductive CalendarProvider
  | google
deriving DecidableEq

inductive TaskListFilter
  | today
  | upcoming
  | done
deriving DecidableEq

inductive ApiError
  | notFound
  | validationError
deriving DecidableEq

structure CalendarEventBase where
  provider : CalendarProvider
  calendar_id : String
  summary : String
  start_datetime : DateTime
  end_datetime : DateTime
  description : Option String
  timezone : String
  reminder_minutes_before : Option Nat
deriving DecidableEq

/-- `CalendarEventCreate`: the create-request shape (no provider event id). -/
structure CalendarEventCreate extends CalendarEventBase
deriving DecidableEq

/-- `CalendarEvent`: the stored shape, with the provider-assigned event id. -/
structure CalendarEvent extends CalendarEventBase where
  event_id : String
deriving DecidableEq

/-- `CalendarEvent(**create.model_dump(), event_id=eid)`. -/
def materializeEvent (c : CalendarEventCreate) (eid : String) : CalendarEvent :=
  { toCalendarEventBase := c.toCalendarEventBase, event_id := eid }

structure SubTask where
  id : UUID
  task_id : UUID
  title : String
  due_datetime : Option DateTime
  completed : Bool
  add_to_calendar : Bool
  event_duration_minutes : Nat
  calendar_id : Option String
  calendar_event_id : Option String
  created_at : DateTime
  updated_at : DateTime
deriving DecidableEq

structure Task where
  id : UUID
  title : String
  note : Option String
  due_datetime : Option DateTime
  completed : Bool
  calendar_event : Option CalendarEvent
  subtasks : List SubTask
deriving DecidableEq

structure TaskCreate where
  title : String
  note : Option String
  due_datetime : Option DateTime
  completed : Bool
  calendar_event : Option CalendarEventCreate
deriving DecidableEq

/-- The two shapes the patch union `CalendarEventCreate | CalendarEvent`
can parse to (strict schemas: presence of `event_id` decides). -/
inductive CalendarEventPatch
  | create (c : CalendarEventCreate)
  | saved (e : CalendarEvent)
deriving DecidableEq

/-- `TaskUpdate`: every field optional; `Option (Option _)` keeps pydantic's
omitted / explicit-null / value distinction (see the header comment). -/
structure TaskUpdate where
  title : Option (Option String) := none
  note : Option (Option String) := none
  due_datetime : Option (Option DateTime) := none
  completed : Option (Option Bool) := none
  calendar_event : Option (Option CalendarEventPatch) := none
deriving DecidableEq

structure SubTaskCreate where
  title : String
  due_datetime : Option DateTime
  completed : Bool
  add_to_calendar : Bool
  event_duration_minutes : Nat
  calendar_id : Option String
  calendar_event_id : Option String
deriving DecidableEq

structure SubTaskUpdate where
  title : Option (Option String) := none
  due_datetime : Option (Option DateTime) := none
  completed : Option (Option Bool) := none
  add_to_calendar : Option (Option Bool) := none
  event_duration_minutes : Option (Option Nat) := none
  calendar_id : Option (Option String) := none
  calendar_event_id : Option (Option String) := none
deriving DecidableEq

/-- The in-memory store: `TASKS` in insertion order plus the uuid freshness
counter. -/
structure Store where
  tasks : List Task
  nextId : Nat
deriving DecidableEq

def initialStore : Store := { tasks := [], nextId := 0 }

/-- `TASKS.get(task_id)` (dict lookup by key). -/
def findTask (ts : List Task) (tid : UUID) : Option Task :=
  ts.find? (fun t => t.id == tid)

/-- In-place mutation of the task stored under key `t'.id`: the entry with
that id is replaced, everything else (order included) is untouched. -/
def replaceTask (t' : Task) : List Task → List Task
  | [] => []
  | t :: ts => if t.id == t'.id then t' :: ts else t :: replaceTask t' ts

/-- `del TASKS[tid]`. -/
def eraseTask (tid : UUID) : List Task → List Task
  | [] => []
  | t :: ts => if t.id == tid then ts else t :: eraseTask tid ts

/-- `_get_subtask_or_404`'s scan of `task.subtasks`. -/
def findSubtask (t : Task) (sid : UUID) : Option SubTask :=
  t.subtasks.find? (fun st => st.id == sid)

/-- In-place mutation of the looked-up subtask inside its parent's list. -/
def replaceSubtask (st' : SubTask) : List SubTask → List SubTask
  | [] => []
  | st :: sts => if st.id == st'.id then st' :: sts else st :: replaceSubtask st' sts

/-- `_matches_query`. -/
def matchesQuery (t : Task) (q : Option String) : Bool :=
  match q with
  | none => true
  | some qs =>
    if qs = "" then true
    else
      let ql := strLower qs
      strHasSub (strLower t.title) ql ||
        (match t.note with
         | none => false
         | some nt => nt ≠ "" && strHasSub (strLower nt) ql)

/-- `_in_due_range`. -/
def inDueRange (t : Task) (dueFrom dueTo : Option DateTime) : Bool :=
  match t.due_datetime with
  | none => true
  | some d =>
    if (match dueFrom with | some f => decide (d < f) | none => false) then false
    else if (match dueTo with | some g => decide (g < d) | none => false) then false
    else true

/-- `_matches_list_filter`. -/
def matchesListFilter (now : DateTime) (t : Task) : Option TaskListFilter → Bool
  | none => true
  | some .done => t.completed
  | some .today =>
    match t.due_datetime with
    | none => false
    | some d => colomboDate d == colomboToday now
  | some .upcoming =>
    match t.due_datetime with
    | none => false
    | some d => colomboToday now < colomboDate d

/-- The `TaskListQuery` validator: fails when both bounds are supplied and
`due_from > due_to`. -/
def rangeOk (dueFrom dueTo : Option DateTime) : Bool :=
  match dueFrom, dueTo with
  | some a, some b => decide (a ≤ b)
  | _, _ => true

/-- The sort key of `list_tasks`:
`(t.due_datetime is None, t.due_datetime or datetime.max)`, with the Bool
encoded as 0/1 so the pair is compared lexicographically. -/
def taskKey (t : Task) : Nat × Nat :=
  ((if t.due_datetime.isNone then 1 else 0), t.due_datetime.getD datetimeMax)

/-- Lexicographic non-strict order on sort keys (Python tuple `<=`). -/
def keyLe (a b : Nat × Nat) : Prop :=
  a.1 < b.1 ∨ (a.1 = b.1 ∧ a.2 ≤ b.2)

instance : DecidableRel keyLe := fun a b => by
  unfold keyLe; exact inferInstance

/-- The list ordering `list_tasks` sorts by. -/
def taskLe (a b : Task) : Prop := keyLe (taskKey a) (taskKey b)

instance : DecidableRel taskLe := fun a b => by
  unfold taskLe; exact inferInstance

instance : IsTotal Task taskLe :=
  ⟨fun a b => by unfold taskLe keyLe; omega⟩

instance : IsTrans Task taskLe :=
  ⟨fun a b c => by unfold taskLe keyLe; omega⟩

/-- The predicate chain of `list_tasks` (query, due range, named filter). -/
def listPred (now : DateTime) (fl : Option TaskListFilter) (q : Option String)
    (dueFrom dueTo : Option DateTime) (t : Task) : Bool :=
  matchesQuery t q && inDueRange t dueFrom dueTo && matchesListFilter now t fl

/-- `GET /api/v1/tasks`: validate the range, filter, stable-sort by due date
(undated last, `insertionSort` being the stable ascending sort). -/
def listTasks (s : Store) (now : DateTime) (fl : Option TaskListFilter)
    (q : Option String) (dueFrom dueTo : Option DateTime) :
    Except ApiError (List Task) :=
  if rangeOk dueFrom dueTo then
    .ok (List.insertionSort taskLe (s.tasks.filter (listPred now fl q dueFrom dueTo)))
  else
    .error .validationError

/-- `POST /api/v1/tasks`. -/
def createTask (s : Store) (p : TaskCreate) : Task × Store :=
  match p.calendar_event with
  | some c =>
    let ev := materializeEvent c (fakeProviderEventId s.nextId)
    let t : Task :=
      { id := s.nextId + 1, title := p.title, note := p.note,
        due_datetime := p.due_datetime, completed := p.completed,
        calendar_event := some ev, subtasks := [] }
    (t, { tasks := s.tasks ++ [t], nextId := s.nextId + 2 })
  | none =>
    let t : Task :=
      { id := s.nextId, title := p.title, note := p.note,
        due_datetime := p.due_datetime, completed := p.completed,
        calendar_event := none, subtasks := [] }
    (t, { tasks := s.tasks ++ [t], nextId := s.nextId + 1 })

/-- `GET /api/v1/tasks/{task_id}` (read only, no store change). -/
def getTask (s : Store) (tid : UUID) : Except ApiError Task :=
  match findTask s.tasks tid with
  | none => .error .notFound
  | some t => .ok t

/-- `_apply_task_update`: scalar fields overwrite when the attribute value is
non-null; `calendar_event` goes by `model_fields_set` (the outer `Option`).
Returns the updated task and the advanced freshness counter. -/
def applyTaskUpdate (n : Nat) (t : Task) (p : TaskUpdate) : Task × Nat :=
  let t1 : Task :=
    { t with
      title := (presentValue p.title).getD t.title,
      note := match presentValue p.note with | some v => some v | none => t.note,
      due_datetime :=
        match presentValue p.due_datetime with
        | some v => some v
        | none => t.due_datetime,
      completed := (presentValue p.completed).getD t.completed }
  match p.calendar_event with
  | none => (t1, n)
  | some none => ({ t1 with calendar_event := none }, n)
  | some (some (.create c)) =>
    ({ t1 with calendar_event := some (materializeEvent c (fakeProviderEventId n)) }, n + 1)
  | some (some (.saved e)) => ({ t1 with calendar_event := some e }, n)

/-- `PATCH /api/v1/tasks/{task_id}`. -/
def updateTask (s : Store) (tid : UUID) (p : TaskUpdate) :
    Except ApiError Task × Store :=
  match findTask s.tasks tid with
  | none => (.error .notFound, s)
  | some t =>
    let r := applyTaskUpdate s.nextId t p
    (.ok r.1, { tasks := replaceTask r.1 s.tasks, nextId := r.2 })

/-- `DELETE /api/v1/tasks/{task_id}`. -/
def deleteTask (s : Store) (tid : UUID) : Except ApiError Unit × Store :=
  match findTask s.tasks tid with
  | none => (.error .notFound, s)
  | some _ => (.ok (), { s with tasks := eraseTask tid s.tasks })

/-- `POST /api/v1/tasks/{task_id}/complete`. -/
def completeTask (s : Store) (tid : UUID) : Except ApiError Task × Store :=
  match findTask s.tasks tid with
  | none => (.error .notFound, s)
  | some t =>
    let t' := { t with completed := true }
    (.ok t', { s with tasks := replaceTask t' s.tasks })

/-- `POST /api/v1/tasks/{task_id}/undo`. -/
def undoTask (s : Store) (tid : UUID) : Except ApiError Task × Store :=
  match findTask s.tasks tid with
  | none => (.error .notFound, s)
  | some t =>
    let t' := { t with completed := false }
    (.ok t', { s with tasks := replaceTask t' s.tasks })

/-- The sort key of `list_subtasks`:
`(st.due_datetime is None, st.due_datetime or datetime.max, st.created_at)`. -/
def subtaskKey (st : SubTask) : Nat × Nat × Nat :=
  ((if st.due_datetime.isNone then 1 else 0),
    st.due_datetime.getD datetimeMax, st.created_at)

/-- Lexicographic non-strict order on subtask sort keys. -/
def subKeyLe (a b : Nat × Nat × Nat) : Prop :=
  a.1 < b.1 ∨ (a.1 = b.1 ∧ (a.2.1 < b.2.1 ∨ (a.2.1 = b.2.1 ∧ a.2.2 ≤ b.2.2)))

instance : DecidableRel subKeyLe := fun a b => by
  unfold subKeyLe; exact inferInstance

def subtaskLe (a b : SubTask) : Prop := subKeyLe (subtaskKey a) (subtaskKey b)

instance : DecidableRel subtaskLe := fun a b => by
  unfold subtaskLe; exact inferInstance

/-- `GET /api/v1/tasks/{task_id}/subtasks`. -/
def listSubtasks (s : Store) (tid : UUID) : Except ApiError (List SubTask) :=
  match findTask s.tasks tid with
  | none => .error .notFound
  | some t => .ok (List.insertionSort subtaskLe t.subtasks)

/-- `POST /api/v1/tasks/{task_id}/subtasks`. -/
def createSubtask (s : Store) (now : DateTime) (tid : UUID) (p : SubTaskCreate) :
    Except ApiError SubTask × Store :=
  match findTask s.tasks tid with
  | none => (.error .notFound, s)
  | some t =>
    let st0 : SubTask :=
      { id := s.nextId, task_id := t.id, title := p.title,
        due_datetime := p.due_datetime, completed := p.completed,
        add_to_calendar := p.add_to_calendar,
        event_duration_minutes := p.event_duration_minutes,
        calendar_id := p.calendar_id, calendar_event_id := p.calendar_event_id,
        created_at := now, updated_at := now }
    let r : SubTask × Nat :=
      if st0.add_to_calendar && st0.calendar_event_id.isNone
          && strTruthy st0.calendar_id then
        ({ st0 with calendar_event_id := some (fakeProviderEventId (s.nextId + 1)) },
          s.nextId + 2)
      else (st0, s.nextId + 1)
    let t' := { t with subtasks := t.subtasks ++ [r.1] }
    (.ok r.1, { tasks := replaceTask t' s.tasks, nextId := r.2 })

/-- `applySubtaskPatch`: the seven `if patch.x is not None` overwrites of
`update_subtask`. -/
def applySubtaskPatch (st : SubTask) (p : SubTaskUpdate) : SubTask :=
  { st with
    title := (presentValue p.title).getD st.title,
    due_datetime :=
      match presentValue p.due_datetime with
      | some v => some v
      | none => st.due_datetime,
    completed := (presentValue p.completed).getD st.completed,
    add_to_calendar := (presentValue p.add_to_calendar).getD st.add_to_calendar,
    event_duration_minutes :=
      (presentValue p.event_duration_minutes).getD st.event_duration_minutes,
    calendar_id :=
      match presentValue p.calendar_id with
      | some v => some v
      | none => st.calendar_id,
    calendar_event_id :=
      match presentValue p.calendar_event_id with
      | some v => some v
      | none => st.calendar_event_id }

/-- The subtask `update_subtask` stores: patch applied, event id auto-assigned
when `add_to_calendar` and `calendar_id` are truthy and `calendar_event_id`
is falsy, `updated_at` refreshed.  Returns it with the advanced counter. -/
def subtaskAfterUpdate (n : Nat) (now : DateTime) (st : SubTask)
    (p : SubTaskUpdate) : SubTask × Nat :=
  let st1 := applySubtaskPatch st p
  let r : SubTask × Nat :=
    if st1.add_to_calendar && strTruthy st1.calendar_id
        && ! strTruthy st1.calendar_event_id then
      ({ st1 with calendar_event_id := some (fakeProviderEventId n) }, n + 1)
    else (st1, n)
  ({ r.1 with updated_at := now }, r.2)

/-- `PATCH /api/v1/tasks/{task_id}/subtasks/{subtask_id}`. -/
def updateSubtask (s : Store) (now : DateTime) (tid sid : UUID)
    (p : SubTaskUpdate) : Except ApiError SubTask × Store :=
  match findTask s.tasks tid with
  | none => (.error .notFound, s)
  | some t =>
    match findSubtask t sid with
    | none => (.error .notFound, s)
    | some st =>
      let r := subtaskAfterUpdate s.nextId now st p
      let t' := { t with subtasks := replaceSubtask r.1 t.subtasks }
      (.ok r.1, { tasks := replaceTask t' s.tasks, nextId := r.2 })

/-- `DELETE /api/v1/tasks/{task_id}/subtasks/{subtask_id}`. -/
def deleteSubtask (s : Store) (tid sid : UUID) : Except ApiError Unit × Store :=
  match findTask s.tasks tid with
  | none => (.error .notFound, s)
  | some t =>
    match findSubtask t sid with
    | none => (.error .notFound, s)
    | some st =>
      let t' := { t with subtasks := t.subtasks.filter (fun x => !(x.id == st.id)) }
      (.ok (), { s with tasks := replaceTask t' s.tasks })

/-- `POST .../subtasks/{subtask_id}/complete`. -/
def completeSubtask (s : Store) (now : DateTime) (tid sid : UUID) :
    Except ApiError SubTask × Store :=
  match findTask s.tasks tid with
  | none => (.error .notFound, s)
  | some t =>
    match findSubtask t sid with
    | none => (.error .notFound, s)
    | some st =>
      let st' := { st with completed := true, updated_at := now }
      let t' := { t with subtasks := replaceSubtask st' t.subtasks }
      (.ok st', { s with tasks := replaceTask t' s.tasks })

/-- `POST .../subtasks/{subtask_id}/undo`. -/
def undoSubtask (s : Store) (now : DateTime) (tid sid : UUID) :
    Except ApiError SubTask × Store :=
  match findTask s.tasks tid with
  | none => (.error .notFound, s)
  | some t =>
    match findSubtask t sid with
    | none => (.error .notFound, s)
    | some st =>
      let st' := { st with completed := false, updated_at := now }
      let t' := { t with subtasks := replaceSubtask st' t.subtasks }
      (.ok st', { s with tasks := replaceTask t' s.tasks })

/-- One mutating request against the store (clock readings inlined as data). -/
inductive Op
  | opCreateTask (p : TaskCreate)
  | opUpdateTask (tid : UUID) (p : TaskUpdate)
  | opDeleteTask (tid : UUID)
  | opCompleteTask (tid : UUID)
  | opUndoTask (tid : UUID)
  | opCreateSubtask (now : DateTime) (tid : UUID) (p : SubTaskCreate)
  | opUpdateSubtask (now : DateTime) (tid sid : UUID) (p : SubTaskUpdate)
  | opDeleteSubtask (tid sid : UUID)
  | opCompleteSubtask (now : DateTime) (tid sid : UUID)
  | opUndoSubtask (now : DateTime) (tid sid : UUID)

/-- The store state after one operation (reads leave the store unchanged and
are omitted). -/
def applyOp (s : Store) : Op → Store
  | .opCreateTask p => (createTask s p).2
  | .opUpdateTask tid p => (updateTask s tid p).2
  | .opDeleteTask tid => (deleteTask s tid).2
  | .opCompleteTask tid => (completeTask s tid).2
  | .opUndoTask tid => (undoTask s tid).2
  | .opCreateSubtask now tid p => (createSubtask s now tid p).2
  | .opUpdateSubtask now tid sid p => (updateSubtask s now tid sid p).2
  | .opDeleteSubtask tid sid => (deleteSubtask s tid sid).2
  | .opCompleteSubtask now tid sid => (completeSubtask s now tid sid).2
  | .opUndoSubtask now tid sid => (undoSubtask s now tid sid).2

/-- The store reached by a sequence of requests from the empty store. -/
def runOps (ops : List Op) : Store := ops.foldl applyOp initialStore

/-- Invariant: every subtask's `task_id` is the id of the task owning it. -/
def SubtaskLinkInv (s : Store) : Prop :=
  ∀ t ∈ s.tasks, ∀ st ∈ t.subtasks, st.task_id = t.id

/-! ### Helper lemmas about the update operations -/

/-- Field-by-field description of `_apply_task_update`'s result. -/
lemma applyTaskUpdate_fst (n : Nat) (t : Task) (p : TaskUpdate) :
    (applyTaskUpdate n t p).1 =
      { t with
        title := (presentValue p.title).getD t.title,
        note := match presentValue p.note with | some v => some v | none => t.note,
        due_datetime :=
          match presentValue p.due_datetime with
          | some v => some v
          | none => t.due_datetime,
        completed := (presentValue p.completed).getD t.completed,
        calendar_event :=
          match p.calendar_event with
          | none => t.calendar_event
          | some none => none
          | some (some (.create c)) =>
            some (materializeEvent c (fakeProviderEventId n))
          | some (some (.saved e)) => some e } := by
  rcases hce : p.calendar_event with _ | ce
  · simp [applyTaskUpdate, hce]
  · rcases ce with _ | pe
    · simp [applyTaskUpdate, hce]
    · rcases pe with c | e <;> simp [applyTaskUpdate, hce]

/-- Fields of the subtask stored by `update_subtask`, relative to the plain
patch application. -/
lemma subtaskAfterUpdate_fields (n : Nat) (now : DateTime) (st : SubTask)
    (q : SubTaskUpdate) :
    (subtaskAfterUpdate n now st q).1.id = st.id ∧
    (subtaskAfterUpdate n now st q).1.task_id = st.task_id ∧
    (subtaskAfterUpdate n now st q).1.due_datetime = (applySubtaskPatch st q).due_datetime ∧
    (subtaskAfterUpdate n now st q).1.calendar_id = (applySubtaskPatch st q).calendar_id ∧
    (subtaskAfterUpdate n now st q).1.updated_at = now ∧
    (subtaskAfterUpdate n now st q).1.add_to_calendar = (applySubtaskPatch st q).add_to_calendar ∧
    (subtaskAfterUpdate n now st q).1.completed = (applySubtaskPatch st q).completed := by
  have hid : (applySubtaskPatch st q).id = st.id := rfl
  have htid : (applySubtaskPatch st q).task_id = st.task_id := rfl
  unfold subtaskAfterUpdate
  by_cases h : ((applySubtaskPatch st q).add_to_calendar
      && strTruthy (applySubtaskPatch st q).calendar_id
      && ! strTruthy (applySubtaskPatch st q).calendar_event_id) = true <;>
    simp [h, hid, htid]

/-- The stored subtask's event id is either the freshly assigned one or the
one the plain patch application produced. -/
lemma subtaskAfterUpdate_calendar_event_id (n : Nat) (now : DateTime)
    (st : SubTask) (q : SubTaskUpdate) :
    (subtaskAfterUpdate n now st q).1.calendar_event_id = some (fakeProviderEventId n) ∨
    (subtaskAfterUpdate n now st q).1.calendar_event_id =
      (applySubtaskPatch st q).calendar_event_id := by
  unfold subtaskAfterUpdate
  by_cases h : ((applySubtaskPatch st q).add_to_calendar
      && strTruthy (applySubtaskPatch st q).calendar_id
      && ! strTruthy (applySubtaskPatch st q).calendar_event_id) = true
  · left; simp [h]
  · right; simp [h]

/-! ### Sample data used by concrete parts of the statements -/

def sampleEventBase : CalendarEventBase :=
  { provider := .google, calendar_id := "cal", summary := "s",
    start_datetime := 0, end_datetime := 60, description := none,
    timezone := "Asia/Colombo", reminder_minutes_before := none }

def sampleEvent : CalendarEvent :=
  { toCalendarEventBase := sampleEventBase, event_id := "evt_7" }

def sampleTask : Task :=
  { id := 1, title := "t", note := some "n", due_datetime := some 100,
    completed := false, calendar_event := some sampleEvent, subtasks := [] }

/-! ### Claims -/

set_option linter.unreachableTactic false in
set_option linter.unusedTactic false in
/-- C7: the due-range predicate always passes a task with no due date, and a
task with due date `d` passes iff `d` lies in the inclusive range, each bound
constraining only when supplied. -/
theorem C7_due_range_inclusive (t : Task) (dueFrom dueTo : Option DateTime) :
    (t.due_datetime = none → inDueRange t dueFrom dueTo = true) ∧
    (∀ d, t.due_datetime = some d →
      ((inDueRange t dueFrom dueTo = true) ↔
        ((∀ a, dueFrom = some a → a ≤ d) ∧ (∀ b, dueTo = some b → d ≤ b)))) := by
  constructor
  · intro h; simp [inDueRange, h]
  · intro d hd
    rcases dueFrom with _ | a <;> rcases dueTo with _ | b <;>
      simp [inDueRange, hd] <;> omega

/-- C4: the named list filter semantics: `done` matches exactly the completed
tasks; `today` (resp. `upcoming`) matches exactly the tasks with a due date
whose Colombo calendar day equals (resp. is strictly after) the current
Colombo date; undated tasks never match `today` or `upcoming`. -/
theorem C4_named_filter_semantics (t : Task) (now : DateTime) :
    (matchesListFilter now t (some .done) = t.completed) ∧
    ((matchesListFilter now t (some .today) = true) ↔
      ∃ d, t.due_datetime = some d ∧ colomboDate d = colomboToday now) ∧
    ((matchesListFilter now t (some .upcoming) = true) ↔
      ∃ d, t.due_datetime = some d ∧ colomboToday now < colomboDate d) ∧
    (t.due_datetime = none →
      matchesListFilter now t (some .today) = false ∧
      matchesListFilter now t (some .upcoming) = false) := by
  refine ⟨rfl, ?_, ?_, ?_⟩
  · cases h : t.due_datetime <;> simp [matchesListFilter, h]
  · cases h : t.due_datetime <;> simp [matchesListFilter, h]
  · intro h; simp [matchesListFilter, h]

/-- C10: in every Task or SubTask patch, a scalar field supplied as explicit
null acts exactly like an omitted field, so no patch can clear a task's note
or due date, nor a subtask's due date, calendar id or calendar event id; the
omitted/null distinction is observable only for a task's `calendar_event`. -/
theorem C10_null_scalar_behaves_as_omitted (t : Task) (st : SubTask) (n : Nat)
    (now : DateTime) (p : TaskUpdate) (q : SubTaskUpdate) :
    (applyTaskUpdate n t { p with title := some none } =
      applyTaskUpdate n t { p with title := none }) ∧
    (applyTaskUpdate n t { p with note := some none } =
      applyTaskUpdate n t { p with note := none }) ∧
    (applyTaskUpdate n t { p with due_datetime := some none } =
      applyTaskUpdate n t { p with due_datetime := none }) ∧
    (applyTaskUpdate n t { p with completed := some none } =
      applyTaskUpdate n t { p with completed := none }) ∧
    (subtaskAfterUpdate n now st { q with title := some none } =
      subtaskAfterUpdate n now st { q with title := none }) ∧
    (subtaskAfterUpdate n now st { q with due_datetime := some none } =
      subtaskAfterUpdate n now st { q with due_datetime := none }) ∧
    (subtaskAfterUpdate n now st { q with completed := some none } =
      subtaskAfterUpdate n now st { q with completed := none }) ∧
    (subtaskAfterUpdate n now st { q with add_to_calendar := some none } =
      subtaskAfterUpdate n now st { q with add_to_calendar := none }) ∧
    (subtaskAfterUpdate n now st { q with event_duration_minutes := some none } =
      subtaskAfterUpdate n now st { q with event_duration_minutes := none }) ∧
    (subtaskAfterUpdate n now st { q with calendar_id := some none } =
      subtaskAfterUpdate n now st { q with calendar_id := none }) ∧
    (subtaskAfterUpdate n now st { q with calendar_event_id := some none } =
      subtaskAfterUpdate n now st { q with calendar_event_id := none }) ∧
    ((applyTaskUpdate n t p).1.note = none → t.note = none) ∧
    ((applyTaskUpdate n t p).1.due_datetime = none → t.due_datetime = none) ∧
    ((subtaskAfterUpdate n now st q).1.due_datetime = none → st.due_datetime = none) ∧
    ((subtaskAfterUpdate n now st q).1.calendar_id = none → st.calendar_id = none) ∧
    ((subtaskAfterUpdate n now st q).1.calendar_event_id = none →
      st.calendar_event_id = none) ∧
    ((applyTaskUpdate 0 sampleTask { calendar_event := some none }).1.calendar_event ≠
      (applyTaskUpdate 0 sampleTask ({} : TaskUpdate)).1.calendar_event) := by
  refine ⟨rfl, rfl, rfl, rfl, rfl, rfl, rfl, rfl, rfl, rfl, rfl, ?_, ?_, ?_, ?_, ?_, ?_⟩
  · rw [applyTaskUpdate_fst]
    cases h : presentValue p.note <;> simp [h]
  · rw [applyTaskUpdate_fst]
    cases h : presentValue p.due_datetime <;> simp [h]
  · have hf := (subtaskAfterUpdate_fields n now st q).2.2.1
    rw [hf]
    simp only [applySubtaskPatch]
    cases h : presentValue q.due_datetime <;> simp [h]
  · have hf := (subtaskAfterUpdate_fields n now st q).2.2.2.1
    rw [hf]
    simp only [applySubtaskPatch]
    cases h : presentValue q.calendar_id <;> simp [h]
  · intro hnone
    rcases subtaskAfterUpdate_calendar_event_id n now st q with hca | hca
    · rw [hca] at hnone; cases hnone
    · rw [hca] at hnone
      cases hp : presentValue q.calendar_event_id with
      | some v =>
        rw [show (applySubtaskPatch st q).calendar_event_id = some v from by
          simp [applySubtaskPatch, hp]] at hnone
        cases hnone
      | none =>
        rwa [show (applySubtaskPatch st q).calendar_event_id = st.calendar_event_id from by
          simp [applySubtaskPatch, hp]] at hnone
  · decide

/-- C1: Update Task keeps explicit-presence (tri-state) semantics for the
`calendar_event` patch field: omitted leaves the stored event unchanged,
explicit null clears it, a create-request shape materializes a new event
with the freshly drawn simulated event id, an already-materialized event is
stored verbatim. -/
theorem C1_calendar_event_tristate (s : Store) (tid : UUID) (t : Task)
    (p : TaskUpdate) (h : findTask s.tasks tid = some t) :
    ∃ t' s', updateTask s tid p = (.ok t', s') ∧
      (p.calendar_event = none → t'.calendar_event = t.calendar_event) ∧
      (p.calendar_event = some none → t'.calendar_event = none) ∧
      (∀ c, p.calendar_event = some (some (.create c)) →
        t'.calendar_event = some (materializeEvent c (fakeProviderEventId s.nextId))) ∧
      (∀ e, p.calendar_event = some (some (.saved e)) →
        t'.calendar_event = some e) := by
  refine ⟨(applyTaskUpdate s.nextId t p).1,
    { tasks := replaceTask (applyTaskUpdate s.nextId t p).1 s.tasks,
      nextId := (applyTaskUpdate s.nextId t p).2 }, ?_, ?_, ?_, ?_, ?_⟩
  · simp [updateTask, h]
  · intro hce; rw [applyTaskUpdate_fst]; simp [hce]
  · intro hce; rw [applyTaskUpdate_fst]; simp [hce]
  · intro c hce; rw [applyTaskUpdate_fst]; simp [hce]
  · intro e hce; rw [applyTaskUpdate_fst]; simp [hce]

def w1Create : CalendarEventCreate := { toCalendarEventBase := sampleEventBase }

def w1Task : Task :=
  { id := 3, title := "w", note := none, due_datetime := none,
    completed := false, calendar_event := some sampleEvent, subtasks := [] }

def w1Store : Store := { tasks := [w1Task], nextId := 9 }

def w1Patch : TaskUpdate := { calendar_event := some (some (.create w1Create)) }

/-- Witness for C1: a stored task with an existing event, patched with a
create-shape event. -/
theorem C1_calendar_event_tristate_witness :
    ∃ t' s', updateTask w1Store 3 w1Patch = (.ok t', s') ∧
      (w1Patch.calendar_event = none → t'.calendar_event = w1Task.calendar_event) ∧
      (w1Patch.calendar_event = some none → t'.calendar_event = none) ∧
      (∀ c, w1Patch.calendar_event = some (some (.create c)) →
        t'.calendar_event = some (materializeEvent c (fakeProviderEventId w1Store.nextId))) ∧
      (∀ e, w1Patch.calendar_event = some (some (.saved e)) →
        t'.calendar_event = some e) :=
  C1_calendar_event_tristate w1Store 3 w1Task w1Patch rfl

/-- The simulated provider event id is never the empty string. -/
lemma fakeProviderEventId_ne_empty (n : Nat) : fakeProviderEventId n ≠ "" := by
  intro h
  have hlen := congrArg String.length h
  simp [fakeProviderEventId, String.length_append] at hlen
  exact absurd hlen.1 (by decide)

def c5Task : Task :=
  { id := 1, title := "a", note := none, due_datetime := none,
    completed := false, calendar_event := none, subtasks := [] }

def c5Store : Store := { tasks := [c5Task], nextId := 2 }

/-- A create payload whose `calendar_id` is set, but set to the empty
string: Python truthiness then skips the auto-assignment. -/
def c5Payload : SubTaskCreate :=
  { title := "s", due_datetime := none, completed := false,
    add_to_calendar := true, event_duration_minutes := 60,
    calendar_id := some "", calendar_event_id := none }

/-- Counterexample to C5 as stated: `add_to_calendar` is true, `calendar_id`
is supplied (so "set"), `calendar_event_id` is absent, yet the created
subtask comes back with no auto-assigned event id, because the source tests
Python truthiness of `calendar_id` and the empty string is falsy. -/
theorem C5_counterexample :
    c5Payload.add_to_calendar = true ∧
    c5Payload.calendar_id = some "" ∧
    c5Payload.calendar_event_id = none ∧
    (createSubtask c5Store 0 1 c5Payload).1 =
      .ok { id := 2, task_id := 1, title := "s", due_datetime := none,
            completed := false, add_to_calendar := true,
            event_duration_minutes := 60, calendar_id := some "",
            calendar_event_id := none, created_at := 0, updated_at := 0 } :=
  ⟨rfl, rfl, rfl, rfl⟩

/-- C5 (amended: `calendar_id` must be set to a NON-EMPTY string): Create
Subtask auto-assigns a non-empty simulated event id when `add_to_calendar`
is true, `calendar_id` is truthy and `calendar_event_id` is absent; Update
Subtask does the same after applying the patch, and always refreshes
`updated_at`. -/
theorem C5_amended_auto_assign_event_id (s : Store) (now : DateTime)
    (tid sid : UUID) (p : SubTaskCreate) (q : SubTaskUpdate) (st : SubTask)
    (n : Nat) :
    (∀ st' s2, createSubtask s now tid p = (.ok st', s2) →
      p.add_to_calendar = true → p.calendar_event_id = none →
      strTruthy p.calendar_id = true →
      ∃ e, st'.calendar_event_id = some e ∧ e ≠ "") ∧
    ((applySubtaskPatch st q).add_to_calendar = true →
      strTruthy (applySubtaskPatch st q).calendar_id = true →
      (applySubtaskPatch st q).calendar_event_id = none →
      ∃ e, (subtaskAfterUpdate n now st q).1.calendar_event_id = some e ∧ e ≠ "") ∧
    (∀ st' s2, updateSubtask s now tid sid q = (.ok st', s2) →
      st'.updated_at = now) := by
  refine ⟨?_, ?_, ?_⟩
  · intro st' s2 hop hadd hevt hcal
    cases hfind : findTask s.tasks tid with
    | none => simp [createSubtask, hfind] at hop
    | some t =>
      have hcond : (p.add_to_calendar && p.calendar_event_id.isNone
          && strTruthy p.calendar_id) = true := by
        simp [hadd, hevt, hcal]
      simp [createSubtask, hfind, hcond] at hop
      exact ⟨fakeProviderEventId (s.nextId + 1), by rw [← hop.1],
        fakeProviderEventId_ne_empty _⟩
  · intro hadd hcal hevt
    have hcond : ((applySubtaskPatch st q).add_to_calendar
        && strTruthy (applySubtaskPatch st q).calendar_id
        && ! strTruthy (applySubtaskPatch st q).calendar_event_id) = true := by
      rw [hevt, hadd, hcal]; decide
    unfold subtaskAfterUpdate
    simp [hcond]
    exact fakeProviderEventId_ne_empty n
  · intro st' s2 hop
    cases hfind : findTask s.tasks tid with
    | none => simp [updateSubtask, hfind] at hop
    | some t =>
      cases hsub : findSubtask t sid with
      | none => simp [updateSubtask, hfind, hsub] at hop
      | some st0 =>
        simp [updateSubtask, hfind, hsub] at hop
        rw [← hop.1]
        exact (subtaskAfterUpdate_fields s.nextId now st0 q).2.2.2.2.1

/-- A found task's id matches the looked-up key. -/
lemma findTask_id {ts : List Task} {tid : UUID} {t : Task}
    (h : findTask ts tid = some t) : t.id = tid := by
  have := List.find?_some h
  simpa using this

/-- A found task belongs to the list. -/
lemma findTask_mem {ts : List Task} {tid : UUID} {t : Task}
    (h : findTask ts tid = some t) : t ∈ ts :=
  List.mem_of_find?_eq_some h

/-- Unfolding of the task lookup over a cons cell. -/
lemma findTask_cons (a : Task) (ts : List Task) (tid : UUID) :
    findTask (a :: ts) tid =
      if a.id == tid then some a else findTask ts tid := by
  unfold findTask
  rw [List.find?_cons]
  cases h : (a.id == tid) <;> simp [h]

/-- Unfolding of the subtask lookup over a cons cell. -/
lemma findSub_cons (a : SubTask) (l : List SubTask) (sid : UUID) :
    (a :: l).find? (fun x => x.id == sid) =
      if a.id == sid then some a else l.find? (fun x => x.id == sid) := by
  rw [List.find?_cons]
  cases h : (a.id == sid) <;> simp [h]

/-- Looking up the key again after the in-place replacement finds the
replacement. -/
lemma findTask_replaceTask {ts : List Task} {tid : UUID} {t t' : Task}
    (h : findTask ts tid = some t) (hid : t'.id = t.id) :
    findTask (replaceTask t' ts) tid = some t' := by
  induction ts with
  | nil => simp [findTask] at h
  | cons a ts ih =>
    have hkey : t.id = tid := findTask_id h
    rw [findTask_cons] at h
    by_cases ha : (a.id == tid) = true
    · rw [if_pos ha] at h
      obtain rfl : a = t := by simpa using h
      have ha' : (a.id == t'.id) = true := by simp [hid]
      simp only [replaceTask]
      rw [if_pos ha', findTask_cons,
        if_pos (show (t'.id == tid) = true by simp [hid, hkey])]
    · rw [if_neg ha] at h
      have ha' : ¬ (a.id == t'.id) = true := by
        simp only [beq_iff_eq] at ha ⊢
        rw [hid, hkey]; exact ha
      simp only [replaceTask]
      rw [if_neg ha', findTask_cons, if_neg ha]
      exact ih h

/-- Replacing the same entry twice is the same as replacing it once. -/
lemma replaceTask_idem (t' : Task) (ts : List Task) :
    replaceTask t' (replaceTask t' ts) = replaceTask t' ts := by
  induction ts with
  | nil => rfl
  | cons a ts ih =>
    by_cases ha : (a.id == t'.id) = true
    · simp [replaceTask, ha]
    · simp [replaceTask, ha, ih]

/-- A found subtask's id matches the looked-up key. -/
lemma findSub_id {l : List SubTask} {sid : UUID} {st : SubTask}
    (h : l.find? (fun x => x.id == sid) = some st) : st.id = sid := by
  have := List.find?_some h
  simpa using this

/-- A found subtask belongs to the list. -/
lemma findSub_mem {l : List SubTask} {sid : UUID} {st : SubTask}
    (h : l.find? (fun x => x.id == sid) = some st) : st ∈ l :=
  List.mem_of_find?_eq_some h

/-- Looking up the key again after the in-place subtask replacement finds
the replacement. -/
lemma findSub_replaceSub {l : List SubTask} {sid : UUID} {st st' : SubTask}
    (h : l.find? (fun x => x.id == sid) = some st) (hid : st'.id = st.id) :
    (replaceSubtask st' l).find? (fun x => x.id == sid) = some st' := by
  induction l with
  | nil => simp at h
  | cons a l ih =>
    have hkey : st.id = sid := findSub_id h
    rw [findSub_cons] at h
    by_cases ha : (a.id == sid) = true
    · rw [if_pos ha] at h
      obtain rfl : a = st := by simpa using h
      have ha' : (a.id == st'.id) = true := by simp [hid]
      simp only [replaceSubtask]
      rw [if_pos ha', findSub_cons,
        if_pos (show (st'.id == sid) = true by simp [hid, hkey])]
    · rw [if_neg ha] at h
      have ha' : ¬ (a.id == st'.id) = true := by
        simp only [beq_iff_eq] at ha ⊢
        rw [hid, hkey]; exact ha
      simp only [replaceSubtask]
      rw [if_neg ha', findSub_cons, if_neg ha]
      exact ih h

/-- Replacing the same subtask twice is the same as replacing it once. -/
lemma replaceSubtask_idem (st' : SubTask) (l : List SubTask) :
    replaceSubtask st' (replaceSubtask st' l) = replaceSubtask st' l := by
  induction l with
  | nil => rfl
  | cons a l ih =>
    by_cases ha : (a.id == st'.id) = true
    · simp [replaceSubtask, ha]
    · simp [replaceSubtask, ha, ih]

/-- C6: Complete and Undo (for tasks and subtasks) set `completed` to
true/false, are idempotent (a second application reproduces exactly the
first result and store), raise no error on an entity already in the target
state (they succeed exactly when the entity exists), and each subtask
application stamps `updated_at` with the current instant. -/
theorem C6_complete_undo_idempotent (s : Store) (now : DateTime)
    (tid sid : UUID) :
    (completeTask (completeTask s tid).2 tid = completeTask s tid) ∧
    (undoTask (undoTask s tid).2 tid = undoTask s tid) ∧
    ((completeTask s tid).1 = .error .notFound ↔ findTask s.tasks tid = none) ∧
    ((undoTask s tid).1 = .error .notFound ↔ findTask s.tasks tid = none) ∧
    (∀ t, findTask s.tasks tid = some t →
      (completeTask s tid).1 = .ok { t with completed := true } ∧
      (undoTask s tid).1 = .ok { t with completed := false }) ∧
    (completeSubtask (completeSubtask s now tid sid).2 now tid sid =
      completeSubtask s now tid sid) ∧
    (undoSubtask (undoSubtask s now tid sid).2 now tid sid =
      undoSubtask s now tid sid) ∧
    (∀ st' s2, completeSubtask s now tid sid = (.ok st', s2) →
      st'.completed = true ∧ st'.updated_at = now) ∧
    (∀ st' s2, undoSubtask s now tid sid = (.ok st', s2) →
      st'.completed = false ∧ st'.updated_at = now) := by
  refine ⟨?_, ?_, ?_, ?_, ?_, ?_, ?_, ?_, ?_⟩
  · cases hfind : findTask s.tasks tid with
    | none => simp [completeTask, hfind]
    | some t =>
      have h2 : findTask (replaceTask { t with completed := true } s.tasks) tid =
          some { t with completed := true } := findTask_replaceTask hfind rfl
      simp [completeTask, hfind, h2, replaceTask_idem]
  · cases hfind : findTask s.tasks tid with
    | none => simp [undoTask, hfind]
    | some t =>
      have h2 : findTask (replaceTask { t with completed := false } s.tasks) tid =
          some { t with completed := false } := findTask_replaceTask hfind rfl
      simp [undoTask, hfind, h2, replaceTask_idem]
  · cases hfind : findTask s.tasks tid with
    | none => simp [completeTask, hfind]
    | some t => simp [completeTask, hfind]
  · cases hfind : findTask s.tasks tid with
    | none => simp [undoTask, hfind]
    | some t => simp [undoTask, hfind]
  · intro t hfind
    simp [completeTask, undoTask, hfind]
  · cases hfind : findTask s.tasks tid with
    | none => simp [completeSubtask, hfind]
    | some t =>
      cases hsub : findSubtask t sid with
      | none => simp [completeSubtask, hfind, hsub]
      | some st =>
        have h2 : findTask (replaceTask
            { t with subtasks :=
              replaceSubtask { st with completed := true, updated_at := now } t.subtasks }
            s.tasks) tid =
            some { t with subtasks :=
              replaceSubtask { st with completed := true, updated_at := now } t.subtasks } :=
          findTask_replaceTask hfind rfl
        have h3 : findSubtask
            { t with subtasks :=
              replaceSubtask { st with completed := true, updated_at := now } t.subtasks }
            sid = some { st with completed := true, updated_at := now } :=
          findSub_replaceSub hsub rfl
        simp [completeSubtask, hfind, hsub, h2, h3,
          replaceSubtask_idem, replaceTask_idem]
  · cases hfind : findTask s.tasks tid with
    | none => simp [undoSubtask, hfind]
    | some t =>
      cases hsub : findSubtask t sid with
      | none => simp [undoSubtask, hfind, hsub]
      | some st =>
        have h2 : findTask (replaceTask
            { t with subtasks :=
              replaceSubtask { st with completed := false, updated_at := now } t.subtasks }
            s.tasks) tid =
            some { t with subtasks :=
              replaceSubtask { st with completed := false, updated_at := now } t.subtasks } :=
          findTask_replaceTask hfind rfl
        have h3 : findSubtask
            { t with subtasks :=
              replaceSubtask { st with completed := false, updated_at := now } t.subtasks }
            sid = some { st with completed := false, updated_at := now } :=
          findSub_replaceSub hsub rfl
        simp [undoSubtask, hfind, hsub, h2, h3,
          replaceSubtask_idem, replaceTask_idem]
  · intro st' s2 hop
    cases hfind : findTask s.tasks tid with
    | none => simp [completeSubtask, hfind] at hop
    | some t =>
      cases hsub : findSubtask t sid with
      | none => simp [completeSubtask, hfind, hsub] at hop
      | some st =>
        simp [completeSubtask, hfind, hsub] at hop
        rw [← hop.1]
        exact ⟨rfl, rfl⟩
  · intro st' s2 hop
    cases hfind : findTask s.tasks tid with
    | none => simp [undoSubtask, hfind] at hop
    | some t =>
      cases hsub : findSubtask t sid with
      | none => simp [undoSubtask, hfind, hsub] at hop
      | some st =>
        simp [undoSubtask, hfind, hsub] at hop
        rw [← hop.1]
        exact ⟨rfl, rfl⟩

/-- C2: every id-addressed operation fails with NotFound when the task id is
absent; every subtask operation fails with NotFound when the subtask id is
absent from the task's list; and a failing operation returns the store
unchanged (no field of a rejected patch is applied). -/
theorem C2_notfound_leaves_store_unchanged (s : Store) (now : DateTime)
    (tid sid : UUID) (tp : TaskUpdate) (sp : SubTaskUpdate)
    (scp : SubTaskCreate) :
    (findTask s.tasks tid = none →
      (getTask s tid = .error .notFound ∧
       updateTask s tid tp = (.error .notFound, s) ∧
       deleteTask s tid = (.error .notFound, s) ∧
       completeTask s tid = (.error .notFound, s) ∧
       undoTask s tid = (.error .notFound, s) ∧
       listSubtasks s tid = .error .notFound ∧
       createSubtask s now tid scp = (.error .notFound, s) ∧
       updateSubtask s now tid sid sp = (.error .notFound, s) ∧
       deleteSubtask s tid sid = (.error .notFound, s) ∧
       completeSubtask s now tid sid = (.error .notFound, s) ∧
       undoSubtask s now tid sid = (.error .notFound, s))) ∧
    (∀ t, findTask s.tasks tid = some t → findSubtask t sid = none →
      (updateSubtask s now tid sid sp = (.error .notFound, s) ∧
       deleteSubtask s tid sid = (.error .notFound, s) ∧
       completeSubtask s now tid sid = (.error .notFound, s) ∧
       undoSubtask s now tid sid = (.error .notFound, s))) ∧
    (∀ e s2, updateTask s tid tp = (.error e, s2) → s2 = s) ∧
    (∀ e s2, deleteTask s tid = (.error e, s2) → s2 = s) ∧
    (∀ e s2, completeTask s tid = (.error e, s2) → s2 = s) ∧
    (∀ e s2, undoTask s tid = (.error e, s2) → s2 = s) ∧
    (∀ e s2, createSubtask s now tid scp = (.error e, s2) → s2 = s) ∧
    (∀ e s2, updateSubtask s now tid sid sp = (.error e, s2) → s2 = s) ∧
    (∀ e s2, deleteSubtask s tid sid = (.error e, s2) → s2 = s) ∧
    (∀ e s2, completeSubtask s now tid sid = (.error e, s2) → s2 = s) ∧
    (∀ e s2, undoSubtask s now tid sid = (.error e, s2) → s2 = s) := by
  refine ⟨?_, ?_, ?_, ?_, ?_, ?_, ?_, ?_, ?_, ?_, ?_⟩
  · intro h
    simp [getTask, updateTask, deleteTask, completeTask, undoTask,
      listSubtasks, createSubtask, updateSubtask, deleteSubtask,
      completeSubtask, undoSubtask, h]
  · intro t ht hst
    simp [updateSubtask, deleteSubtask, completeSubtask, undoSubtask, ht, hst]
  · intro e s2 hop
    cases hfind : findTask s.tasks tid with
    | none => simp [updateTask, hfind] at hop; exact hop.2.symm
    | some t => simp [updateTask, hfind] at hop
  · intro e s2 hop
    cases hfind : findTask s.tasks tid with
    | none => simp [deleteTask, hfind] at hop; exact hop.2.symm
    | some t => simp [deleteTask, hfind] at hop
  · intro e s2 hop
    cases hfind : findTask s.tasks tid with
    | none => simp [completeTask, hfind] at hop; exact hop.2.symm
    | some t => simp [completeTask, hfind] at hop
  · intro e s2 hop
    cases hfind : findTask s.tasks tid with
    | none => simp [undoTask, hfind] at hop; exact hop.2.symm
    | some t => simp [undoTask, hfind] at hop
  · intro e s2 hop
    cases hfind : findTask s.tasks tid with
    | none => simp [createSubtask, hfind] at hop; exact hop.2.symm
    | some t => simp [createSubtask, hfind] at hop
  · intro e s2 hop
    cases hfind : findTask s.tasks tid with
    | none => simp [updateSubtask, hfind] at hop; exact hop.2.symm
    | some t =>
      cases hsub : findSubtask t sid with
      | none => simp [updateSubtask, hfind, hsub] at hop; exact hop.2.symm
      | some st0 => simp [updateSubtask, hfind, hsub] at hop
  · intro e s2 hop
    cases hfind : findTask s.tasks tid with
    | none => simp [deleteSubtask, hfind] at hop; exact hop.2.symm
    | some t =>
      cases hsub : findSubtask t sid with
      | none => simp [deleteSubtask, hfind, hsub] at hop; exact hop.2.symm
      | some st0 => simp [deleteSubtask, hfind, hsub] at hop
  · intro e s2 hop
    cases hfind : findTask s.tasks tid with
    | none => simp [completeSubtask, hfind] at hop; exact hop.2.symm
    | some t =>
      cases hsub : findSubtask t sid with
      | none => simp [completeSubtask, hfind, hsub] at hop; exact hop.2.symm
      | some st0 => simp [completeSubtask, hfind, hsub] at hop
  · intro e s2 hop
    cases hfind : findTask s.tasks tid with
    | none => simp [undoSubtask, hfind] at hop; exact hop.2.symm
    | some t =>
      cases hsub : findSubtask t sid with
      | none => simp [undoSubtask, hfind, hsub] at hop; exact hop.2.symm
      | some st0 => simp [undoSubtask, hfind, hsub] at hop

/-- A key absent from the id column is never found. -/
lemma findTask_none_of_id_notMem {ts : List Task} {tid : UUID}
    (h : tid ∉ ts.map Task.id) : findTask ts tid = none := by
  induction ts with
  | nil => rfl
  | cons a ts ih =>
    simp only [List.map_cons, List.mem_cons] at h
    push_neg at h
    rw [findTask_cons, if_neg]
    · exact ih h.2
    · simp only [beq_iff_eq]
      exact fun e => h.1 e.symm

/-- With unique ids, the deleted key is gone from the store. -/
lemma findTask_eraseTask_self {ts : List Task} {tid : UUID}
    (hnd : (ts.map Task.id).Nodup) : findTask (eraseTask tid ts) tid = none := by
  induction ts with
  | nil => rfl
  | cons a ts ih =>
    simp only [List.map_cons, List.nodup_cons] at hnd
    by_cases ha : (a.id == tid) = true
    · simp only [eraseTask]
      rw [if_pos ha]
      have e : a.id = tid := by simpa using ha
      exact findTask_none_of_id_notMem (e ▸ hnd.1)
    · simp only [eraseTask]
      rw [if_neg ha, findTask_cons, if_neg ha]
      exact ih hnd.2

/-- Deleting an entry keeps a sub-collection of the original entries. -/
lemma mem_eraseTask {ts : List Task} {tid : UUID} {x : Task}
    (h : x ∈ eraseTask tid ts) : x ∈ ts := by
  induction ts with
  | nil => simp [eraseTask] at h
  | cons a ts ih =>
    by_cases ha : (a.id == tid) = true
    · simp only [eraseTask] at h
      rw [if_pos ha] at h
      exact .tail _ h
    · simp only [eraseTask] at h
      rw [if_neg ha] at h
      rcases List.mem_cons.mp h with h1 | h2
      · exact h1 ▸ List.mem_cons_self _ _
      · exact .tail _ (ih h2)

/-- With unique ids, no survivor of the deletion carries the deleted id. -/
lemma mem_eraseTask_ne {ts : List Task} {tid : UUID} {x : Task}
    (hnd : (ts.map Task.id).Nodup) (h : x ∈ eraseTask tid ts) : x.id ≠ tid := by
  induction ts with
  | nil => simp [eraseTask] at h
  | cons a ts ih =>
    simp only [List.map_cons, List.nodup_cons] at hnd
    by_cases ha : (a.id == tid) = true
    · simp only [eraseTask] at h
      rw [if_pos ha] at h
      have e : a.id = tid := by simpa using ha
      intro hx
      exact hnd.1 (by rw [e, ← hx]; exact List.mem_map_of_mem Task.id h)
    · simp only [eraseTask] at h
      rw [if_neg ha] at h
      rcases List.mem_cons.mp h with h1 | h2
      · subst h1; simpa using ha
      · exact ih hnd.2 h2

/-- C8: deleting an existing task removes it (and, it owning them, all of
its subtasks) permanently: any subsequent get, update or delete on the same
identifier fails with NotFound, as does listing its subtasks; deleting an
absent id fails with NotFound. -/
theorem C8_delete_task_cascades (s : Store) (tid : UUID) (tp : TaskUpdate)
    (hnd : (s.tasks.map Task.id).Nodup) :
    (findTask s.tasks tid = none → deleteTask s tid = (.error .notFound, s)) ∧
    (∀ t, findTask s.tasks tid = some t →
      (deleteTask s tid).1 = .ok () ∧
      (deleteTask s tid).2.tasks = eraseTask tid s.tasks ∧
      (∀ t2, t2 ∈ (deleteTask s tid).2.tasks → t2 ∈ s.tasks ∧ t2.id ≠ tid) ∧
      findTask (deleteTask s tid).2.tasks tid = none ∧
      getTask (deleteTask s tid).2 tid = .error .notFound ∧
      updateTask (deleteTask s tid).2 tid tp =
        (.error .notFound, (deleteTask s tid).2) ∧
      deleteTask (deleteTask s tid).2 tid =
        (.error .notFound, (deleteTask s tid).2) ∧
      listSubtasks (deleteTask s tid).2 tid = .error .notFound) := by
  constructor
  · intro h; simp [deleteTask, h]
  · intro t ht
    have hdel : deleteTask s tid =
        (.ok (), { s with tasks := eraseTask tid s.tasks }) := by
      simp [deleteTask, ht]
    have hnone : findTask (eraseTask tid s.tasks) tid = none :=
      findTask_eraseTask_self hnd
    rw [hdel]
    refine ⟨rfl, rfl, ?_, hnone, ?_, ?_, ?_, ?_⟩
    · intro t2 h2
      exact ⟨mem_eraseTask h2, mem_eraseTask_ne hnd h2⟩
    · simp [getTask, hnone]
    · simp [updateTask, hnone]
    · simp [deleteTask, hnone]
    · simp [listSubtasks, hnone]

def w8Sub : SubTask :=
  { id := 10, task_id := 4, title := "s", due_datetime := none,
    completed := false, add_to_calendar := false,
    event_duration_minutes := 60, calendar_id := none,
    calendar_event_id := none, created_at := 0, updated_at := 0 }

def w8Task : Task :=
  { id := 4, title := "a", note := none, due_datetime := none,
    completed := false, calendar_event := none, subtasks := [w8Sub] }

def w8Task2 : Task :=
  { id := 5, title := "b", note := none, due_datetime := none,
    completed := false, calendar_event := none, subtasks := [] }

def w8Store : Store := { tasks := [w8Task, w8Task2], nextId := 11 }

/-- Witness for C8: a two-task store in which task 4 (owning a subtask) is
deleted. -/
theorem C8_delete_task_cascades_witness :
    (findTask w8Store.tasks 4 = none → deleteTask w8Store 4 = (.error .notFound, w8Store)) ∧
    (∀ t, findTask w8Store.tasks 4 = some t →
      (deleteTask w8Store 4).1 = .ok () ∧
      (deleteTask w8Store 4).2.tasks = eraseTask 4 w8Store.tasks ∧
      (∀ t2, t2 ∈ (deleteTask w8Store 4).2.tasks → t2 ∈ w8Store.tasks ∧ t2.id ≠ 4) ∧
      findTask (deleteTask w8Store 4).2.tasks 4 = none ∧
      getTask (deleteTask w8Store 4).2 4 = .error .notFound ∧
      updateTask (deleteTask w8Store 4).2 4 {} =
        (.error .notFound, (deleteTask w8Store 4).2) ∧
      deleteTask (deleteTask w8Store 4).2 4 =
        (.error .notFound, (deleteTask w8Store 4).2) ∧
      listSubtasks (deleteTask w8Store 4).2 4 = .error .notFound) :=
  C8_delete_task_cascades w8Store 4 {} (by decide)

/-- Membership after an in-place task replacement. -/
lemma mem_replaceTask {ts : List Task} {t' x : Task}
    (h : x ∈ replaceTask t' ts) : x = t' ∨ x ∈ ts := by
  induction ts with
  | nil => simp [replaceTask] at h
  | cons a ts ih =>
    by_cases ha : (a.id == t'.id) = true
    · simp only [replaceTask] at h
      rw [if_pos ha] at h
      rcases List.mem_cons.mp h with h1 | h2
      · exact .inl h1
      · exact .inr (.tail _ h2)
    · simp only [replaceTask] at h
      rw [if_neg ha] at h
      rcases List.mem_cons.mp h with h1 | h2
      · exact .inr (h1 ▸ List.mem_cons_self _ _)
      · rcases ih h2 with h3 | h3
        · exact .inl h3
        · exact .inr (.tail _ h3)

/-- Membership after an in-place subtask replacement. -/
lemma mem_replaceSubtask {l : List SubTask} {st' x : SubTask}
    (h : x ∈ replaceSubtask st' l) : x = st' ∨ x ∈ l := by
  induction l with
  | nil => simp [replaceSubtask] at h
  | cons a l ih =>
    by_cases ha : (a.id == st'.id) = true
    · simp only [replaceSubtask] at h
      rw [if_pos ha] at h
      rcases List.mem_cons.mp h with h1 | h2
      · exact .inl h1
      · exact .inr (.tail _ h2)
    · simp only [replaceSubtask] at h
      rw [if_neg ha] at h
      rcases List.mem_cons.mp h with h1 | h2
      · exact .inr (h1 ▸ List.mem_cons_self _ _)
      · rcases ih h2 with h3 | h3
        · exact .inl h3
        · exact .inr (.tail _ h3)

/-- Task updates touch neither the task's id nor its subtask list. -/
lemma applyTaskUpdate_id_subtasks (n : Nat) (t : Task) (p : TaskUpdate) :
    (applyTaskUpdate n t p).1.id = t.id ∧
    (applyTaskUpdate n t p).1.subtasks = t.subtasks := by
  rw [applyTaskUpdate_fst]; exact ⟨rfl, rfl⟩

/-- The shape of `create_task`'s result: the new task is appended and owns
no subtasks. -/
lemma createTask_spec (s : Store) (p : TaskCreate) :
    (createTask s p).2.tasks = s.tasks ++ [(createTask s p).1] ∧
    (createTask s p).1.subtasks = [] := by
  rcases hpc : p.calendar_event with _ | c <;> simp [createTask, hpc]

/-- Every mutating operation preserves the subtask back-reference
invariant. -/
lemma subtaskLinkInv_applyOp (s : Store) (o : Op) (h : SubtaskLinkInv s) :
    SubtaskLinkInv (applyOp s o) := by
  cases o with
  | opCreateTask p =>
    intro t ht st hst
    simp only [applyOp] at ht
    rw [(createTask_spec s p).1] at ht
    rcases List.mem_append.mp ht with h1 | h1
    · exact h t h1 st hst
    · obtain rfl : t = (createTask s p).1 := by simpa using h1
      rw [(createTask_spec s p).2] at hst
      cases hst
  | opUpdateTask tid p =>
    intro t ht st hst
    simp only [applyOp] at ht
    cases hfind : findTask s.tasks tid with
    | none => simp only [updateTask, hfind] at ht; exact h t ht st hst
    | some t0 =>
      simp only [updateTask, hfind] at ht
      rcases mem_replaceTask ht with rfl | hmem
      · have hspec := applyTaskUpdate_id_subtasks s.nextId t0 p
        rw [hspec.2] at hst
        rw [hspec.1]
        exact h t0 (findTask_mem hfind) st hst
      · exact h t hmem st hst
  | opDeleteTask tid =>
    intro t ht st hst
    simp only [applyOp] at ht
    cases hfind : findTask s.tasks tid with
    | none => simp only [deleteTask, hfind] at ht; exact h t ht st hst
    | some t0 =>
      simp only [deleteTask, hfind] at ht
      exact h t (mem_eraseTask ht) st hst
  | opCompleteTask tid =>
    intro t ht st hst
    simp only [applyOp] at ht
    cases hfind : findTask s.tasks tid with
    | none => simp only [completeTask, hfind] at ht; exact h t ht st hst
    | some t0 =>
      simp only [completeTask, hfind] at ht
      rcases mem_replaceTask ht with rfl | hmem
      · exact h t0 (findTask_mem hfind) st hst
      · exact h t hmem st hst
  | opUndoTask tid =>
    intro t ht st hst
    simp only [applyOp] at ht
    cases hfind : findTask s.tasks tid with
    | none => simp only [undoTask, hfind] at ht; exact h t ht st hst
    | some t0 =>
      simp only [undoTask, hfind] at ht
      rcases mem_replaceTask ht with rfl | hmem
      · exact h t0 (findTask_mem hfind) st hst
      · exact h t hmem st hst
  | opCreateSubtask now tid p =>
    intro t ht st hst
    simp only [applyOp] at ht
    cases hfind : findTask s.tasks tid with
    | none => simp only [createSubtask, hfind] at ht; exact h t ht st hst
    | some t0 =>
      simp only [createSubtask, hfind] at ht
      rcases mem_replaceTask ht with rfl | hmem
      · rcases List.mem_append.mp hst with h1 | h1
        · exact h t0 (findTask_mem hfind) st h1
        · have hstv := List.mem_singleton.mp h1
          subst hstv
          split <;> rfl
      · exact h t hmem st hst
  | opUpdateSubtask now tid sid p =>
    intro t ht st hst
    simp only [applyOp] at ht
    cases hfind : findTask s.tasks tid with
    | none => simp only [updateSubtask, hfind] at ht; exact h t ht st hst
    | some t0 =>
      cases hsub : findSubtask t0 sid with
      | none =>
        simp only [updateSubtask, hfind, hsub] at ht
        exact h t ht st hst
      | some st0 =>
        simp only [updateSubtask, hfind, hsub] at ht
        rcases mem_replaceTask ht with rfl | hmem
        · rcases mem_replaceSubtask hst with rfl | hmem2
          · have hfields := subtaskAfterUpdate_fields s.nextId now st0 p
            rw [hfields.2.1]
            exact h t0 (findTask_mem hfind) st0 (findSub_mem hsub)
          · exact h t0 (findTask_mem hfind) st hmem2
        · exact h t hmem st hst
  | opDeleteSubtask tid sid =>
    intro t ht st hst
    simp only [applyOp] at ht
    cases hfind : findTask s.tasks tid with
    | none => simp only [deleteSubtask, hfind] at ht; exact h t ht st hst
    | some t0 =>
      cases hsub : findSubtask t0 sid with
      | none =>
        simp only [deleteSubtask, hfind, hsub] at ht
        exact h t ht st hst
      | some st0 =>
        simp only [deleteSubtask, hfind, hsub] at ht
        rcases mem_replaceTask ht with rfl | hmem
        · exact h t0 (findTask_mem hfind) st (List.mem_of_mem_filter hst)
        · exact h t hmem st hst
  | opCompleteSubtask now tid sid =>
    intro t ht st hst
    simp only [applyOp] at ht
    cases hfind : findTask s.tasks tid with
    | none => simp only [completeSubtask, hfind] at ht; exact h t ht st hst
    | some t0 =>
      cases hsub : findSubtask t0 sid with
      | none =>
        simp only [completeSubtask, hfind, hsub] at ht
        exact h t ht st hst
      | some st0 =>
        simp only [completeSubtask, hfind, hsub] at ht
        rcases mem_replaceTask ht with rfl | hmem
        · rcases mem_replaceSubtask hst with rfl | hmem2
          · exact h t0 (findTask_mem hfind) st0 (findSub_mem hsub)
          · exact h t0 (findTask_mem hfind) st hmem2
        · exact h t hmem st hst
  | opUndoSubtask now tid sid =>
    intro t ht st hst
    simp only [applyOp] at ht
    cases hfind : findTask s.tasks tid with
    | none => simp only [undoSubtask, hfind] at ht; exact h t ht st hst
    | some t0 =>
      cases hsub : findSubtask t0 sid with
      | none =>
        simp only [undoSubtask, hfind, hsub] at ht
        exact h t ht st hst
      | some st0 =>
        simp only [undoSubtask, hfind, hsub] at ht
        rcases mem_replaceTask ht with rfl | hmem
        · rcases mem_replaceSubtask hst with rfl | hmem2
          · exact h t0 (findTask_mem hfind) st0 (findSub_mem hsub)
          · exact h t0 (findTask_mem hfind) st hmem2
        · exact h t hmem st hst

/-- The invariant is preserved along any operation sequence. -/
lemma subtaskLinkInv_foldl : ∀ (ops : List Op) (s : Store),
    SubtaskLinkInv s → SubtaskLinkInv (ops.foldl applyOp s)
  | [], _, h => h
  | o :: ops, s, h =>
    subtaskLinkInv_foldl ops (applyOp s o) (subtaskLinkInv_applyOp s o h)

/-- C9: in every store state reachable from the empty store by the
operations of the API, every subtask's `task_id` equals the id of the task
that owns it. -/
theorem C9_subtask_backref_invariant (ops : List Op) :
    SubtaskLinkInv (runOps ops) :=
  subtaskLinkInv_foldl ops initialStore
    (by intro t ht; simp [initialStore] at ht)

/-- Two tasks with equal sort keys are related both ways; failing `taskLe`
forces strictly distinct keys. -/
lemma taskKey_ne_of_not_taskLe {a b : Task} (h : ¬ taskLe a b) :
    taskKey b ≠ taskKey a := by
  unfold taskLe keyLe at h
  intro e
  rw [e] at h
  exact h (.inr ⟨rfl, le_refl _⟩)

/-- Inserting an element in key order moves it past strictly smaller keys
only, so the elements of any one key class keep their relative order. -/
lemma filter_orderedInsert_task (t : Task) (k : Nat × Nat) :
    ∀ L : List Task,
      (List.orderedInsert taskLe t L).filter (fun a => decide (taskKey a = k)) =
        if taskKey t = k then
          t :: L.filter (fun a => decide (taskKey a = k))
        else L.filter (fun a => decide (taskKey a = k))
  | [] => by
    by_cases h : taskKey t = k <;> simp [List.orderedInsert, h]
  | b :: L => by
    by_cases hb : taskLe t b
    · simp only [List.orderedInsert, if_pos hb]
      by_cases hk : taskKey t = k <;> simp [hk, List.filter_cons]
    · simp only [List.orderedInsert, if_neg hb]
      by_cases hk : taskKey t = k
      · have hbk : ¬ (taskKey b = k) := by
          rw [← hk]; exact taskKey_ne_of_not_taskLe hb
        simp [List.filter_cons, hbk, hk, filter_orderedInsert_task t k L]
      · simp [List.filter_cons, hk, filter_orderedInsert_task t k L]

/-- The stable sort does not reorder within a key class. -/
lemma filter_insertionSort_task (k : Nat × Nat) :
    ∀ L : List Task,
      (List.insertionSort taskLe L).filter (fun a => decide (taskKey a = k)) =
        L.filter (fun a => decide (taskKey a = k))
  | [] => rfl
  | b :: L => by
    simp only [List.insertionSort]
    rw [filter_orderedInsert_task]
    by_cases hk : taskKey b = k <;>
      simp [hk, List.filter_cons, filter_insertionSort_task k L]

def exampleTaskMar : Task :=
  { id := 1, title := "march", note := none, due_datetime := some 28487520,
    completed := false, calendar_event := none, subtasks := [] }

def exampleTaskNone : Task :=
  { id := 2, title := "undated", note := none, due_datetime := none,
    completed := false, calendar_event := none, subtasks := [] }

def exampleTaskJan : Task :=
  { id := 3, title := "january", note := none, due_datetime := some 28401120,
    completed := false, calendar_event := none, subtasks := [] }

/-- Store with due dates 2024-03-01, none, 2024-01-01 (as minute
timestamps), in that insertion order. -/
def exampleStore : Store :=
  { tasks := [exampleTaskMar, exampleTaskNone, exampleTaskJan], nextId := 4 }

/-- C3: for every store state and filter combination (with a valid range),
List Tasks returns exactly the tasks passing every supplied predicate,
ordered ascending by due date with undated tasks last (`taskLe` is the
lexicographic order on `(due is none, due or datetime.max)`), and the order
is otherwise stable (each key class keeps the store order); the spec's
example [2024-03-01, none, 2024-01-01] comes out [2024-01-01, 2024-03-01,
none]. -/
theorem C3_list_tasks_sorted_stable (s : Store) (now : DateTime)
    (fl : Option TaskListFilter) (q : Option String)
    (dueFrom dueTo : Option DateTime) :
    (rangeOk dueFrom dueTo = false →
      listTasks s now fl q dueFrom dueTo = .error .validationError) ∧
    (rangeOk dueFrom dueTo = true →
      ∃ out, listTasks s now fl q dueFrom dueTo = .ok out ∧
        (∀ t, t ∈ out ↔ (t ∈ s.tasks ∧ listPred now fl q dueFrom dueTo t = true)) ∧
        out.Perm (s.tasks.filter (listPred now fl q dueFrom dueTo)) ∧
        out.Pairwise taskLe ∧
        (∀ k : Nat × Nat, out.filter (fun t => decide (taskKey t = k)) =
          (s.tasks.filter (listPred now fl q dueFrom dueTo)).filter
            (fun t => decide (taskKey t = k)))) ∧
    (listTasks exampleStore 0 none none none none =
      .ok [exampleTaskJan, exampleTaskMar, exampleTaskNone]) := by
  refine ⟨?_, ?_, ?_⟩
  · intro h; simp [listTasks, h]
  · intro h
    refine ⟨List.insertionSort taskLe
        (s.tasks.filter (listPred now fl q dueFrom dueTo)),
      by simp [listTasks, h], ?_, ?_, ?_, ?_⟩
    · intro t
      rw [List.mem_insertionSort, List.mem_filter]
    · exact List.perm_insertionSort taskLe _
    · exact List.sorted_insertionSort taskLe _
    · intro k
      exact filter_insertionSort_task k _
  · rfl

end TodoApp
